import Mathlib

/-!
Shallow embedding of the peer-network management layer
(`packages/core-api-p2p/lib/down.js`, class `Down`) and proofs about it.

The JavaScript registry `this.peers` is an object keyed by peer IP; we model
it as a `List Peer` whose elements carry their key (`ip`), preserving
insertion order, with key-uniqueness stated as a `Nodup` hypothesis where a
claim needs it.  External effects (network calls, `Math.random`,
`process.env`, the wall clock) are passed in as explicit parameters.
-/

/-- Last-known state reported by a peer, as read from `peer.state` in
`down.js` (`height`, `currentSlot`, `forgingAllowed`).  A `height` of `0`
models the JavaScript falsy/unset height (`peer.state.height` untruthy). -/
structure PeerState where
  height : Nat
  currentSlot : Nat
  forgingAllowed : Bool
  deriving Repr, DecidableEq

/-- One registry entry: the fields of the `Peer` object that `down.js`
reads (`ip`, `port`, `ban`, `delay`, `downloadSize`, `state`). -/
structure Peer where
  ip : String
  port : Nat
  ban : Nat
  delay : Nat
  downloadSize : Nat
  state : PeerState
  deriving Repr, DecidableEq

/-- The registry `this.peers`, modelled as an insertion-ordered list of
entries keyed by `Peer.ip`. -/
abbrev Registry := List Peer

/-- One seed entry of `config.peers.list`: `{ip, port}`. -/
structure SeedPeer where
  ip : String
  port : Nat
  deriving Repr, DecidableEq

/-- Modelled from the spec: `new Peer(ip, port, config)` (file `peer.js` is
not part of the shown sources).  The spec's data model says a peer is
created from its address and port with no last-seen state yet, ban expiry
not in the future and no observed latency; state fields are only filled in
by a later successful probe.  Only `ip` and `port` matter to the claims
below. -/
def mkPeer (ip : String) (port : Nat) : Peer :=
  { ip := ip, port := port, ban := 0, delay := 0, downloadSize := 0,
    state := { height := 0, currentSlot := 0, forgingAllowed := false } }

/-- `this.peers[p.ip] = p`: JavaScript object assignment.  If the key is
present the entry is replaced in place, otherwise the new entry is appended
(JS objects keep string-key insertion order). -/
def Registry.insert (r : Registry) (p : Peer) : Registry :=
  if r.any (fun q => q.ip == p.ip) then
    r.map (fun q => if q.ip == p.ip then p else q)
  else
    r ++ [p]

/-- `delete this.peers[ip]`. -/
def Registry.removeIp (r : Registry) (ip : String) : Registry :=
  r.filter (fun q => !(q.ip == ip))

/-! ## Consensus metrics (`getNetworkHeight`, lines 213-220)

`Object.values(this.peers).filter(p => p.state.height).map(p => p.state.height).sort()`
uses JavaScript's **default** sort comparator, which converts each element
to a string and compares code units — lexicographic, not numeric, order. -/

/-- Code-unit-wise `≤` on character lists: the order JavaScript's default
sort comparator induces on the decimal string forms. -/
def charListLe : List Char → List Char → Bool
  | [], _ => true
  | _ :: _, [] => false
  | a :: as, b :: bs =>
    if a.val < b.val then true
    else if b.val < a.val then false
    else charListLe as bs

/-- JavaScript default comparison of two numbers under `Array.prototype.sort`:
both are converted to their decimal strings and compared lexicographically. -/
def jsDefaultLe (a b : Nat) : Bool :=
  charListLe (Nat.repr a).data (Nat.repr b).data

/-- Insertion into an already-sorted list, for the sort model. -/
def insertSorted (le : Nat → Nat → Bool) (x : Nat) : List Nat → List Nat
  | [] => [x]
  | y :: ys => if le x y then x :: y :: ys else y :: insertSorted le x ys

/-- Sorting with an explicit boolean order (insertion sort). -/
def sortBy (le : Nat → Nat → Bool) (l : List Nat) : List Nat :=
  l.foldr (insertSorted le) []

/-- `getNetworkHeight()` (down.js lines 213-220): keep the truthy heights,
sort them with JavaScript's default (string) comparator, return the element
at index `~~(length / 2)`; `none` models the `undefined` read past the end
of an empty array. -/
def getNetworkHeight (r : Registry) : Option Nat :=
  let median := sortBy jsDefaultLe ((r.filter (fun p => p.state.height != 0)).map
    (fun p => p.state.height))
  median.get? (median.length / 2)

/-- The spec-mandated variant of the median: identical to `getNetworkHeight`
except that the heights are sorted numerically ascending, as §4.5 of the
spec requires. -/
def getNetworkHeightNumeric (r : Registry) : Option Nat :=
  let median := sortBy Nat.ble ((r.filter (fun p => p.state.height != 0)).map
    (fun p => p.state.height))
  median.get? (median.length / 2)

/-- A registry whose peers report heights 10, 20, 30, 40, 50. -/
def regHeights5 : Registry :=
  [10, 20, 30, 40, 50].map (fun h =>
    { mkPeer "h" 4001 with ip := toString h, state := { height := h, currentSlot := 0, forgingAllowed := false } })

/-- Two peers reporting heights 9 and 10: the smallest state on which the
string sort visibly disagrees with the numeric sort. -/
def regHeights910 : Registry :=
  [9, 10].map (fun h =>
    { mkPeer "h" 4001 with ip := toString h, state := { height := h, currentSlot := 0, forgingAllowed := false } })

/-- C1: `getNetworkHeight` sorts with JavaScript's default string
comparator, not numerically.  On heights `[9, 10]` the string sort yields
`["10", "9"]`, so the code returns `9` where the spec's numeric median is
`10`; the claim's own example `[10, 20, 30, 40, 50] ↦ 30` and the
empty-registry "no data" result do hold, because those strings happen to
sort in numeric order. -/
theorem getNetworkHeight_string_sort_bug :
    getNetworkHeight regHeights910 = some 9 ∧
    getNetworkHeightNumeric regHeights910 = some 10 ∧
    getNetworkHeight regHeights5 = some 30 ∧
    getNetworkHeight ([] : Registry) = none := by
  refine ⟨?_, ?_, ?_, ?_⟩ <;> rfl

/-! ## Peer selection (`getRandomPeer`, lines 144-158)

`getRandomPeer(acceptableDelay)` filters the keys by ban expiry and — only
when `acceptableDelay` is truthy — by `delay < acceptableDelay`, then reads
`keys[keys.length * Math.random() << 0]`.  When that read is `undefined`
(in particular when the filtered key set is empty) the code deletes the
`undefined` key (a no-op on the registry unless a peer is literally keyed
`"undefined"`), calls `p2p.checkOnline()` (externally effectful only) and
recurses via `this.getRandomPeer()` — with **no argument**, dropping the
latency bound, and with no recursion bound.

`Math.random()` is modelled by a stream `rand : Nat → Nat` of draws, the
`k`-th call using index `rand k % keys.length` (every in-bounds index is
a possible value of `keys.length * Math.random() << 0`); recursion depth
is bounded by explicit `fuel`, with `none` modelling non-termination. -/

def getRandomPeer (reg : Registry) (now : Nat) (rand : Nat → Nat) :
    Nat → Option Nat → Nat → Option Peer
  | 0, _, _ => none
  | fuel + 1, acceptableDelay, k =>
    let keys1 : Registry := reg.filter (fun p => p.ban < now)
    let keys2 : Registry :=
      match acceptableDelay with
      | some d => if d != 0 then keys1.filter (fun p => p.delay < d) else keys1
      | none => keys1
    match keys2.get? (rand k % keys2.length) with
    | some p => some p
    | none => getRandomPeer reg now rand fuel none (k + 1)

/-- A single registered peer whose observed latency is 100 ms and whose ban
has expired. -/
def peerSlow : Peer :=
  { ip := "1.2.3.4", port := 4001, ban := 0, delay := 100, downloadSize := 0,
    state := { height := 7, currentSlot := 0, forgingAllowed := false } }

/-- C2: `getRandomPeer(50)` on a registry whose only peer has latency 100
returns that peer anyway: the latency filter empties the key set, and the
retry recurses **without** the `acceptableDelay` argument, so the bound is
forgotten.  Moreover on an empty registry no recursion depth ever produces
a result — the code self-recurses forever and has no `NoEligiblePeer`
failure path at all. -/
theorem getRandomPeer_ignores_delay_bound :
    (getRandomPeer [peerSlow] 1000 (fun _ => 0) 2 (some 50) 0 = some peerSlow ∧
      peerSlow.delay > 50) ∧
    (∀ fuel acceptableDelay k,
      getRandomPeer [] 1000 (fun _ => 0) fuel acceptableDelay k = none) := by
  refine ⟨⟨rfl, by decide⟩, ?_⟩
  intro fuel
  induction fuel with
  | zero => intro acceptableDelay k; rfl
  | succ n ih =>
    intro acceptableDelay k
    match acceptableDelay with
    | none => simpa [getRandomPeer] using ih none (k + 1)
    | some d =>
      by_cases hd : (d != 0) = true <;>
        simpa [getRandomPeer, hd] using ih none (k + 1)

/-! ## Download-peer selection and `downloadBlocks` (lines 164-177, 241-251)

`getRandomDownloadBlocksPeer` filters by ban expiry and `downloadSize !== 100`
and, when the indexed read is `undefined`, falls back to `getRandomPeer()`.
`downloadBlocks(fromBlockHeight)` selects such a peer, pings it, and on any
failure recurses with the **same** height — unboundedly, with no terminal
error. -/

def getRandomDownloadBlocksPeer (reg : Registry) (now : Nat) (rand : Nat → Nat)
    (fuel : Nat) (k : Nat) : Option Peer :=
  let keys1 := reg.filter (fun p => p.ban < now)
  let keys2 := keys1.filter (fun p => p.downloadSize != 100)
  match keys2.get? (rand k % keys2.length) with
  | some p => some p
  | none => getRandomPeer reg now rand fuel none (k + 1)

/-- A block, abstracted to its payload identity (block contents are opaque
to `down.js`). -/
abbrev Block := Nat

/-- `downloadBlocks(fromBlockHeight)` (lines 241-251).  `attempt p h`
bundles the outcome of `randomPeer.ping()` followed by
`randomPeer.downloadBlocks(h)` against peer `p`: the `catch` in the code
treats a failure of either identically, by recursing on the same height.
`fuel` bounds the recursion depth of the model; `none` models
non-termination (the code has no bound and no terminal error). -/
def downloadBlocks (reg : Registry) (now : Nat) (rand : Nat → Nat)
    (attempt : Peer → Nat → Except Unit (List Block)) :
    Nat → Nat → Nat → Option (List Block)
  | 0, _, _ => none
  | fuel + 1, fromBlockHeight, k =>
    match getRandomDownloadBlocksPeer reg now rand (fuel + 1) k with
    | none => none
    | some p =>
      match attempt p fromBlockHeight with
      | .ok blocks => some blocks
      | .error _ => downloadBlocks reg now rand attempt fuel fromBlockHeight (k + 1)

/-- C8: with a single registered, selectable peer whose ping always fails,
`downloadBlocks` never terminates: for every recursion depth it reaches no
result, and the code has no `DownloadExhausted` (or any other) terminal
error — each failure re-selects and recurses on the same height forever. -/
theorem downloadBlocks_unbounded_retry :
    ∀ fuel fromBlockHeight k,
      downloadBlocks [peerSlow] 1000 (fun _ => 0) (fun _ _ => .error ())
        fuel fromBlockHeight k = none := by
  intro fuel
  induction fuel with
  | zero => intro fromBlockHeight k; rfl
  | succ n ih =>
    intro fromBlockHeight k
    simpa [downloadBlocks, getRandomDownloadBlocksPeer, peerSlow] using
      ih fromBlockHeight (k + 1)

/-! ## Block broadcast (`broadcastBlock`, lines 258-264)

`Promise.all(bpeers.map(peer => peer.postBlock(...)))`: all sends are
dispatched, but the aggregate promise settles by JavaScript's `Promise.all`
rule — it fulfils with the list of values only when every send fulfils, and
**rejects** with a peer's rejection reason as soon as any send rejects. -/

/-- `Promise.all` over already-determined per-element outcomes: fulfils with
the value list when all fulfil, rejects with a rejection reason otherwise. -/
def promiseAll {α : Type} : List (Except String α) → Except String (List α)
  | [] => .ok []
  | x :: xs =>
    match x with
    | .error e => .error e
    | .ok a =>
      match promiseAll xs with
      | .error e => .error e
      | .ok as => .ok (a :: as)

/-- `broadcastBlock(block)` (lines 258-264): map `postBlock` over
`Object.values(this.peers)` and return the `Promise.all` aggregate.
`post p` is the settled outcome of `p.postBlock(block.toBroadcastV1())`. -/
def broadcastBlock (reg : Registry) (post : Peer → Except String Unit) :
    Except String (List Unit) :=
  promiseAll (reg.map post)

/-- A second registered peer, used by the broadcast counterexample. -/
def peerB : Peer :=
  { ip := "5.6.7.8", port := 4001, ban := 0, delay := 20, downloadSize := 0,
    state := { height := 7, currentSlot := 0, forgingAllowed := false } }

/-- A `postBlock` outcome map under which exactly one of the two peers
fails. -/
def postOneFails (p : Peer) : Except String Unit :=
  if p.ip == "5.6.7.8" then .error "postBlock failed" else .ok ()

/-- C3 counterexample: with two registered peers of which one `postBlock`
rejects, `broadcastBlock` does not complete with an aggregate count — the
`Promise.all` aggregate rejects, raising the individual peer's failure to
the caller. -/
theorem broadcastBlock_raises_on_peer_failure :
    broadcastBlock [peerSlow, peerB] postOneFails =
      .error "postBlock failed" := by
  rfl

/-- C3 as amended: `broadcastBlock` dispatches a send to every registered
peer, and when every `postBlock` fulfils it completes (with the list of
acks, not a count); but a single peer's rejection rejects the aggregate
`Promise.all`, raising that failure to the caller — no aggregate
success/failure count is ever returned. -/
theorem broadcastBlock_promise_all (reg : Registry)
    (post : Peer → Except String Unit) :
    ((∀ p ∈ reg, post p = .ok ()) →
      broadcastBlock reg post = .ok (reg.map (fun _ => ()))) ∧
    ((∃ p ∈ reg, ∃ e, post p = .error e) →
      ∃ e, broadcastBlock reg post = .error e) := by
  constructor
  · intro h
    induction reg with
    | nil => rfl
    | cons p ps ih =>
      have hp : post p = .ok () := h p (by simp)
      have hps := ih (fun q hq => h q (by simp [hq]))
      simp only [broadcastBlock, List.map_cons, promiseAll, hp]
      simp only [broadcastBlock] at hps
      rw [hps]
  · rintro ⟨p, hp, e, he⟩
    induction reg with
    | nil => exact absurd hp (List.not_mem_nil p)
    | cons q qs ih =>
      rcases List.mem_cons.mp hp with hq | hq
      · subst hq
        exact ⟨e, by simp [broadcastBlock, promiseAll, he]⟩
      · rcases ih hq with ⟨e', he'⟩
        simp only [broadcastBlock, List.map_cons, promiseAll]
        match hpost : post q with
        | .error e2 => exact ⟨e2, rfl⟩
        | .ok _ =>
          simp only [broadcastBlock] at he'
          rw [he']
          exact ⟨e', rfl⟩

/-- C3 witness: at a two-peer registry where every send fulfils, the first
conjunct yields the fulfilled aggregate; at `postOneFails`, the second
yields a rejection. -/
theorem broadcastBlock_promise_all_witness :
    broadcastBlock [peerSlow, peerB] (fun _ => .ok ()) = .ok [(), ()] ∧
    ∃ e, broadcastBlock [peerSlow, peerB] postOneFails = .error e := by
  constructor
  · exact (broadcastBlock_promise_all [peerSlow, peerB] (fun _ => .ok ())).1
      (by intro p _; rfl)
  · exact (broadcastBlock_promise_all [peerSlow, peerB] postOneFails).2
      ⟨peerB, by simp, "postBlock failed", rfl⟩

/-! ## Constructor and failure-recovery re-seeding (lines 18-30, 55-67)

The constructor seeds the registry from `config.peers.list`, but **filters
out** a seed only when it is exactly `('127.0.0.1', config.server.port)`;
the recovery paths of `updateNetworkStatus` (lines 56-57 and 64) re-seed
from the **unfiltered** list. -/

/-- Folding JavaScript's `peers[peer.ip] = new Peer(peer.ip, peer.port, config)`
over a seed list, starting from registry `reg`.  This is the `forEach` used
both (on the filtered list) by the constructor and (on the full list) by
the re-seeding in `updateNetworkStatus`. -/
def seedInsert (reg : Registry) (list : List SeedPeer) : Registry :=
  list.foldl (fun r s => r.insert (mkPeer s.ip s.port)) reg

/-- The registry built by the constructor (lines 27-29): every configured
seed except `('127.0.0.1', server.port)` is inserted, keyed by IP. -/
def constructorPeers (list : List SeedPeer) (serverPort : Nat) : Registry :=
  seedInsert [] (list.filter (fun s => s.ip != "127.0.0.1" || s.port != serverPort))

/-- The wholesale re-seeding performed by `updateNetworkStatus` on its
size-shortfall path (lines 56-57) and on its error path (line 64): every
configured seed is inserted, with **no** self filter. -/
def reseedPeers (reg : Registry) (list : List SeedPeer) : Registry :=
  seedInsert reg list

/-- The constructor modelled end to end (lines 18-30): `!config.peers.list`
is true only when the list is absent (`undefined`/`null`), in which case
construction throws; an **empty array is truthy**, so construction then
succeeds.  `none` models an absent `config.peers.list`. -/
def downConstructor (listOpt : Option (List SeedPeer)) (serverPort : Nat) :
    Except String Registry :=
  match listOpt with
  | none => .error "No seed peers defined in config/peers.json"
  | some list => .ok (constructorPeers list serverPort)

/-- C5: constructing with an **empty** seed list succeeds (with an empty
registry) — JavaScript's `!config.peers.list` is false for an empty array —
while only an absent list throws.  The claim (and the constructor's own
doc comment, "throws if no seed peers") requires the empty list to fail. -/
theorem downConstructor_accepts_empty_list :
    downConstructor (some []) 4000 = .ok [] ∧
    downConstructor none 4000 =
      .error "No seed peers defined in config/peers.json" := by
  exact ⟨rfl, rfl⟩

/-- Any entry of `r.insert p` is either the inserted entry or an entry that
was already in `r`. -/
theorem mem_registry_insert {r : Registry} {p q : Peer}
    (h : q ∈ r.insert p) : q = p ∨ q ∈ r := by
  unfold Registry.insert at h
  by_cases hany : r.any (fun x => x.ip == p.ip)
  · rw [if_pos hany] at h
    rcases List.mem_map.mp h with ⟨x, hx, hfx⟩
    by_cases hip : (x.ip == p.ip) = true
    · left; rw [← hfx, if_pos hip]
    · right; rw [← hfx, if_neg hip]; exact hx
  · rw [if_neg hany] at h
    rcases List.mem_append.mp h with hr | hq
    · exact Or.inr hr
    · exact Or.inl (List.mem_singleton.mp hq)

/-- Any entry of a registry produced by folding seed insertions is either a
pre-existing entry or a fresh `Peer` built from one of the seeds. -/
theorem mem_seedInsert {list : List SeedPeer} {reg : Registry} {q : Peer}
    (h : q ∈ seedInsert reg list) :
    q ∈ reg ∨ ∃ s ∈ list, q = mkPeer s.ip s.port := by
  induction list generalizing reg with
  | nil => exact Or.inl h
  | cons s ss ih =>
    rcases ih h with hr | ⟨t, ht, hq⟩
    · rcases mem_registry_insert hr with hq | hq
      · exact Or.inr ⟨s, by simp, hq⟩
      · exact Or.inl hq
    · exact Or.inr ⟨t, by simp [ht], hq⟩

/-- C4 counterexample: seed list `[('127.0.0.1', 4000)]` with
`server.port = 4000`.  The constructor filters the node's own pair out, but
the failure-recovery re-seeding of `updateNetworkStatus` re-inserts every
seed unfiltered, so afterwards the registry contains the node's own
`(address, port)` entry — refuting the claim's "never", which quantifies
over re-seeding as well. -/
theorem reseed_reinserts_self :
    constructorPeers [⟨"127.0.0.1", 4000⟩] 4000 = [] ∧
    mkPeer "127.0.0.1" 4000 ∈
      reseedPeers (constructorPeers [⟨"127.0.0.1", 4000⟩] 4000)
        [⟨"127.0.0.1", 4000⟩] := by
  exact ⟨rfl, by decide⟩

/-- C4 as amended: the registry **as built by the constructor** never
contains an entry with address `127.0.0.1` and the node's own listening
port, for any seed list; the invariant stops there — the wholesale
re-seeding in `updateNetworkStatus` inserts every configured seed with no
self filter (see the counterexample). -/
theorem constructorPeers_excludes_self (list : List SeedPeer)
    (serverPort : Nat) (p : Peer) (h : p ∈ constructorPeers list serverPort) :
    ¬(p.ip = "127.0.0.1" ∧ p.port = serverPort) := by
  rintro ⟨hip, hport⟩
  rcases mem_seedInsert h with hnil | ⟨s, hs, hp⟩
  · exact absurd hnil (List.not_mem_nil p)
  · have hcond := List.of_mem_filter hs
    rw [hp] at hip hport
    simp only [mkPeer] at hip hport
    rw [hip, hport] at hcond
    simp at hcond

/-- C4 witness: the constructor on the seed list
`[('127.0.0.1', 4000), ('9.9.9.9', 4002)]` with own port 4000 admits
`9.9.9.9`, and the theorem applies to it. -/
theorem constructorPeers_excludes_self_witness :
    mkPeer "9.9.9.9" 4002 ∈ constructorPeers [⟨"127.0.0.1", 4000⟩, ⟨"9.9.9.9", 4002⟩] 4000 ∧
    ¬((mkPeer "9.9.9.9" 4002).ip = "127.0.0.1" ∧ (mkPeer "9.9.9.9" 4002).port = 4000) := by
  refine ⟨by decide, ?_⟩
  exact constructorPeers_excludes_self [⟨"127.0.0.1", 4000⟩, ⟨"9.9.9.9", 4002⟩]
    4000 (mkPeer "9.9.9.9" 4002) (by decide)

/-! ## PBFT forging status (`getPBFTForgingStatus`, lines 226-234)

`okForging / syncedPeers.length` is IEEE-754 division: `0 / 0` is `NaN`,
which is what the code returns when no registered peer reports the local
current slot. -/

/-- A JavaScript number as far as this computation can produce one: a real
ratio, `NaN`, or `Infinity`. -/
inductive JSNum
  | num (q : ℚ)
  | nan
  | inf
  deriving Repr, DecidableEq

/-- JavaScript division of two non-negative integers: `0/0` is `NaN`,
`a/0` with `a ≠ 0` is `Infinity`, otherwise the exact ratio (all ratios
arising here are exactly representable). -/
def jsDivNat (a b : Nat) : JSNum :=
  if b = 0 then (if a = 0 then .nan else .inf) else .num ((a : ℚ) / (b : ℚ))

/-- JavaScript `x >= height` where `height` is `getNetworkHeight()`:
comparison against `undefined` (here `none`) is false. -/
def heightGe (h : Nat) (networkHeight : Option Nat) : Bool :=
  match networkHeight with
  | some m => decide (m ≤ h)
  | none => false

/-- The local `syncedPeers` of `getPBFTForgingStatus`: registered peers
whose reported `state.currentSlot` equals the local slot. -/
def syncedPeers (reg : Registry) (slot : Nat) : Registry :=
  reg.filter (fun p => p.state.currentSlot == slot)

/-- The local `okForging` of `getPBFTForgingStatus`: how many synced peers
are forging-allowed with height at or above the network height. -/
def okForgingCount (reg : Registry) (slot : Nat) : Nat :=
  ((syncedPeers reg slot).filter
    (fun p => p.state.forgingAllowed && heightGe p.state.height (getNetworkHeight reg))).length

/-- `getPBFTForgingStatus()` (lines 226-234): the ratio
`okForging / syncedPeers.length`, as the IEEE division the code performs. -/
def getPBFTForgingStatus (reg : Registry) (slot : Nat) : JSNum :=
  jsDivNat (okForgingCount reg slot) (syncedPeers reg slot).length

/-- The forging status as the spec words it: the same fraction, but an
explicit "no data" result (`none`) — never `NaN` — when zero peers share
the current slot. -/
def forgingStatusSpec (reg : Registry) (slot : Nat) : Option ℚ :=
  if (syncedPeers reg slot).length = 0 then none
  else some ((okForgingCount reg slot : ℚ) / ((syncedPeers reg slot).length : ℚ))

/-- C6 counterexample: a registry whose peers all report slot `0`, queried
at local slot `5`: zero peers share the slot and the code returns `NaN`
(`0 / 0`), not an explicit "no data" result distinguishable from a ratio. -/
theorem getPBFTForgingStatus_nan_on_empty_slot :
    getPBFTForgingStatus regHeights910 5 = .nan := by
  rfl

/-- C6 as amended: whenever at least one peer shares the local current
slot, `getPBFTForgingStatus` returns exactly the fraction the spec
describes (forging-allowed and height at or above the network height, over
the slot-sharing peers); but when zero peers share the slot it returns
`NaN`, not an explicit "no data" value. -/
theorem getPBFTForgingStatus_matches_spec_or_nan (reg : Registry) (slot : Nat) :
    (forgingStatusSpec reg slot = none → getPBFTForgingStatus reg slot = .nan) ∧
    (∀ q, forgingStatusSpec reg slot = some q →
      getPBFTForgingStatus reg slot = .num q) := by
  by_cases h : (syncedPeers reg slot).length = 0
  · have hz : okForgingCount reg slot = 0 := by
      unfold okForgingCount
      rw [List.length_eq_zero.mp h]
      rfl
    constructor
    · intro _
      unfold getPBFTForgingStatus jsDivNat
      rw [h, hz]
      rfl
    · intro q hq
      unfold forgingStatusSpec at hq
      rw [if_pos h] at hq
      cases hq
  · constructor
    · intro hcon
      unfold forgingStatusSpec at hcon
      rw [if_neg h] at hcon
      cases hcon
    · intro q hq
      unfold forgingStatusSpec at hq
      rw [if_neg h] at hq
      unfold getPBFTForgingStatus jsDivNat
      rw [if_neg h, Option.some_inj.mp hq]

/-- C6 witness: four peers share slot `7`, three of them forging-allowed at
the network height; the spec fraction is `3/4` and the code returns it. -/
def regForging : Registry :=
  [("a", true), ("b", true), ("c", true), ("d", false)].map (fun x =>
    { ip := x.1, port := 4001, ban := 0, delay := 0, downloadSize := 0,
      state := { height := 50, currentSlot := 7, forgingAllowed := x.2 } })

/-- C6 witness: evaluates the amended theorem at `regForging`, local slot
`7`: the spec value is `some (3/4)` and the code computes `num (3/4)`. -/
theorem getPBFTForgingStatus_matches_spec_or_nan_witness :
    getPBFTForgingStatus regForging 7 = .num ((3 : ℚ) / 4) := by
  apply (getPBFTForgingStatus_matches_spec_or_nan regForging 7).2
  have hok : okForgingCount regForging 7 = 3 := by decide
  have hlen : (syncedPeers regForging 7).length = 4 := by decide
  unfold forgingStatusSpec
  rw [hok, hlen]
  norm_num

/-! ## Cleanup sweep (`cleanPeers`, lines 81-107)

The sweep pings every registered peer; a peer whose ping throws is
deleted and counted in `wrongpeers`; afterwards the log reports
`(max - wrongpeers)/max` responsive peers.  `pingFails p` is the settled
outcome of `this.peers[ip].ping(fast ? 1000 : 5000)` for peer `p` (`true`
when the probe failed). -/

/-- `cleanPeers(fast)` (lines 81-107), returning the registry after the
sweep together with the responsive count the code reports
(`max - wrongpeers`). -/
def cleanPeers (reg : Registry) (pingFails : Peer → Bool) : Registry × Nat :=
  let keys := reg
  let maxPeers := keys.length
  let newReg : Registry :=
    keys.foldl (fun r p => if pingFails p then r.removeIp p.ip else r) reg
  let wrongpeers := (keys.filter pingFails).length
  (newReg, maxPeers - wrongpeers)

/-- Folding per-peer deletions over a work list removes from the
accumulator exactly the entries whose IP matches some failing peer in the
work list. -/
theorem cleanFold_eq_filter (pingFails : Peer → Bool) (todo : List Peer) :
    ∀ acc : Registry,
      todo.foldl (fun r p => if pingFails p then r.removeIp p.ip else r) acc =
        acc.filter (fun q => !(todo.any (fun p => pingFails p && q.ip == p.ip))) := by
  induction todo with
  | nil => intro acc; simp
  | cons p ps ih =>
    intro acc
    simp only [List.foldl_cons]
    rw [ih]
    by_cases hp : pingFails p
    · simp only [hp, if_true, Registry.removeIp, List.filter_filter]
      apply List.filter_congr
      intro q _
      simp [hp, Bool.and_comm]
    · simp only [hp, if_false]
      apply List.filter_congr
      intro q _
      simp [hp]

/-- Under unique registry keys, "some failing registered peer shares `q`'s
IP" is just "`q` itself fails", for a registered `q`. -/
theorem any_shares_ip_eq_self (reg : Registry) (pingFails : Peer → Bool)
    (h : (reg.map Peer.ip).Nodup) (q : Peer) (hq : q ∈ reg) :
    reg.any (fun p => pingFails p && q.ip == p.ip) = pingFails q := by
  by_cases hfq : pingFails q
  · rw [List.any_eq_true.mpr ⟨q, hq, by simp [hfq]⟩, hfq]
  · rw [Bool.eq_false_iff.mpr hfq]
    apply Bool.eq_false_iff.mpr
    intro hany
    rcases List.any_eq_true.mp hany with ⟨p, hp, hcond⟩
    simp only [Bool.and_eq_true] at hcond
    rcases hcond with ⟨hfp, hip⟩
    have : p = q :=
      List.inj_on_of_nodup_map h hp hq (eq_of_beq hip).symm
    rw [this] at hfp
    exact hfq hfp

/-- C7: for a sweep over a registry with unique keys, the registry
afterwards consists of exactly the peers whose probe succeeded, its size is
`N - M` (N registered, M failing), and the reported responsive count is
also `N - M`. -/
theorem cleanPeers_sweep (reg : Registry) (pingFails : Peer → Bool)
    (h : (reg.map Peer.ip).Nodup) :
    (cleanPeers reg pingFails).1 = reg.filter (fun p => !pingFails p) ∧
    (cleanPeers reg pingFails).1.length
      = reg.length - (reg.filter pingFails).length ∧
    (cleanPeers reg pingFails).2
      = reg.length - (reg.filter pingFails).length := by
  have h1 : (cleanPeers reg pingFails).1 = reg.filter (fun p => !pingFails p) := by
    show reg.foldl _ reg = _
    rw [cleanFold_eq_filter]
    apply List.filter_congr
    intro q hq
    rw [any_shares_ip_eq_self reg pingFails h q hq]
  have hlen : (reg.filter (fun p => !pingFails p)).length
      = reg.length - (reg.filter pingFails).length := by
    have := reg.length_eq_length_filter_add pingFails
    omega
  exact ⟨h1, by rw [h1, hlen], rfl⟩

/-- A third peer for the sweep witness. -/
def peerC : Peer :=
  { ip := "9.9.9.9", port := 4001, ban := 0, delay := 30, downloadSize := 0,
    state := { height := 7, currentSlot := 0, forgingAllowed := false } }

/-- Probe outcome for the sweep witness: exactly `peerB` fails. -/
def failsOnlyB (p : Peer) : Bool := p.ip == "5.6.7.8"

/-- C7 witness: sweeping three uniquely-keyed peers of which one fails
leaves the two responsive peers and reports 2 responsive. -/
theorem cleanPeers_sweep_witness :
    (cleanPeers [peerSlow, peerB, peerC] failsOnlyB).1 = [peerSlow, peerC] ∧
    (cleanPeers [peerSlow, peerB, peerC] failsOnlyB).2 = 2 := by
  have h := cleanPeers_sweep [peerSlow, peerB, peerC] failsOnlyB (by decide)
  refine ⟨?_, ?_⟩
  · rw [h.1]; rfl
  · rw [h.2.2]; rfl

/-! ## Peer acceptance (`acceptNewPeer`, lines 114-129) -/

/-- An externally advertised peer candidate, carrying the fields
`acceptNewPeer` inspects. -/
structure Candidate where
  ip : String
  port : Nat
  nethash : String
  deriving Repr, DecidableEq

/-- The terminal outcomes of `acceptNewPeer`: silent return (already
registered, or testnet mode), the two thrown errors, successful admission,
or a silently dropped unreachable candidate. -/
inductive AcceptOutcome
  | silentNoop
  | wrongNetwork
  | localhostRejected
  | added
  | droppedUnreachable
  deriving Repr, DecidableEq

/-- `acceptNewPeer(peer)` (lines 114-129).  `testnet` models
`process.env.ARK_ENV === 'testnet'`; `pingOk` is the settled outcome of
`npeer.ping()`.  Returns the updated registry and the terminal outcome
(`wrongNetwork` and `localhostRejected` are the thrown errors). -/
def acceptNewPeer (reg : Registry) (testnet : Bool) (localNethash : String)
    (peer : Candidate) (pingOk : Bool) : Registry × AcceptOutcome :=
  if reg.any (fun q => q.ip == peer.ip) || testnet then (reg, .silentNoop)
  else if peer.nethash != localNethash then (reg, .wrongNetwork)
  else if peer.ip == "::ffff:127.0.0.1" || peer.ip == "127.0.0.1" then
    (reg, .localhostRejected)
  else if pingOk then (reg.insert (mkPeer peer.ip peer.port), .added)
  else (reg, .droppedUnreachable)

/-- C9: for an unregistered candidate with testnet mode off, a mismatched
network-identity hash fails with the wrong-network error, and a
matching-hash candidate at a loopback address fails with the
localhost-rejection error (the hash is checked first); in both cases the
returned registry is the unchanged input. -/
theorem acceptNewPeer_rejections (reg : Registry) (localNethash : String)
    (peer : Candidate) (pingOk : Bool)
    (hreg : reg.any (fun q => q.ip == peer.ip) = false) :
    (peer.nethash ≠ localNethash →
      acceptNewPeer reg false localNethash peer pingOk = (reg, .wrongNetwork)) ∧
    (peer.nethash = localNethash →
      (peer.ip = "::ffff:127.0.0.1" ∨ peer.ip = "127.0.0.1") →
      acceptNewPeer reg false localNethash peer pingOk
        = (reg, .localhostRejected)) := by
  unfold acceptNewPeer
  rw [hreg]
  constructor
  · intro hnm
    simp [hnm]
  · intro heq hlo
    rcases hlo with hip | hip <;> simp [heq, hip]

/-- A candidate advertising a foreign network hash. -/
def candWrongNet : Candidate := ⟨"8.8.8.8", 4001, "otherNet"⟩

/-- A loopback candidate on the local network. -/
def candLoopback : Candidate := ⟨"127.0.0.1", 4001, "localNet"⟩

/-- C9 witness: on an empty registry with local hash `"localNet"`, the
foreign-hash candidate is rejected as wrong-network and the loopback
candidate as localhost, the registry staying empty both times. -/
theorem acceptNewPeer_rejections_witness :
    acceptNewPeer [] false "localNet" candWrongNet true = ([], .wrongNetwork) ∧
    acceptNewPeer [] false "localNet" candLoopback true
      = ([], .localhostRejected) := by
  constructor
  · exact (acceptNewPeer_rejections [] "localNet" candWrongNet true rfl).1
      (by decide)
  · exact (acceptNewPeer_rejections [] "localNet" candLoopback true rfl).2
      rfl (Or.inr rfl)

/-! ## `stop()` (lines 73-75) -/

/-- The full mutable state a `Down` instance holds: its registry plus the
configuration it was built from. -/
structure DownState where
  peers : Registry
  serverPort : Nat
  seedList : List SeedPeer
  nethash : String
  deriving Repr, DecidableEq

/-- `stop()` (lines 73-75): the body is empty (`// Noop`) — it reads and
writes nothing and starts or cancels no operation. -/
def Down.stop (s : DownState) : DownState := s

/-- C10: `stop()` is a pure no-op on the manager state: the registry and
every other field are returned unchanged, and no in-flight operation is
touched (the body performs no action at all). -/
theorem stop_is_noop (s : DownState) : Down.stop s = s := rfl
